import Mathlib

/-!
Verification of the todo-list view-materialization and local change-application
logic of `src/components/todos/todo-list.tsx` and `src/components/todos/todo-item.tsx`
(`TodoItem.handleToggleStatus`), over a shallow embedding of the TypeScript code.

Records are embedded as a `Todo` structure carrying exactly the fields the
component code reads (`src/types`, table `todos` plus the joined `tags`);
dates are embedded as integer timestamps (`new Date(x).getTime()`), strings as
Lean `String` with explicit JavaScript-style `trim` / `toLowerCase` /
`includes` models, and the in-place `Array.prototype.sort` as the stable
`List.mergeSort` under the boolean relation `comparator result ≤ 0`.
-/

/-- Embedding of `TodoStatus` from `src/types` (`'todo'|'in_progress'|'done'|'cancelled'`). -/
inductive TodoStatus where
  | todo
  | in_progress
  | done
  | cancelled
deriving DecidableEq, Repr

/-- Embedding of `TodoPriority` from `src/types` (`'low'|'medium'|'high'|'urgent'`). -/
inductive TodoPriority where
  | low
  | medium
  | high
  | urgent
deriving DecidableEq, Repr

/-- A joined tag row; the component code only reads `tag.id`. -/
structure Tag where
  id : String
  name : String
deriving DecidableEq, Repr

/-- Embedding of the `Todo` record with the fields `todo-list.tsx` /
`todo-item.tsx` access.  Dates are integer timestamps; `description`,
`tags`, `dueDate` and `completedAt` are optional exactly where the code
guards for absent values (`todo.description?.`, `todo.tags?.`,
`!todo.dueDate`). -/
structure Todo where
  id : String
  title : String
  description : Option String
  status : TodoStatus
  priority : TodoPriority
  projectId : String
  tags : Option (List Tag)
  dueDate : Option Int
  created_at : Int
  updated_at : Int
  completedAt : Option Int
deriving DecidableEq, Repr

/-- Embedding of `SortField` from `src/types`. -/
inductive SortField where
  | created_at
  | title
  | due_date
  | priority
  | status
deriving DecidableEq, Repr

/-- Embedding of `SortOrder` from `src/types`. -/
inductive SortOrder where
  | asc
  | desc
deriving DecidableEq, Repr

/-- Embedding of `TodoSort` from `src/types`. -/
structure TodoSort where
  field : SortField
  order : SortOrder
deriving DecidableEq, Repr

/-- Embedding of `TodoFilters` from `src/types`; absent (`undefined`)
members are `none`. -/
structure TodoFilters where
  status : Option (List TodoStatus) := none
  priority : Option (List TodoPriority) := none
  projectId : Option String := none
  tagIds : Option (List String) := none
  dueDateFrom : Option Int := none
  dueDateTo : Option Int := none
deriving DecidableEq, Repr

/-- The empty filter spec `{}` used as the component's initial state. -/
def emptyFilters : TodoFilters := {}

/-- JavaScript whitespace test for the characters `String.prototype.trim`
removes (the ones relevant to this code base). -/
def wsChar (c : Char) : Bool :=
  c = ' ' || c = '\t' || c = '\n' || c = '\r'

/-- Model of `String.prototype.trim`: drop whitespace from both ends. -/
def jsTrim (s : String) : String :=
  ⟨(((s.data.dropWhile wsChar).reverse.dropWhile wsChar).reverse)⟩

/-- Model of `String.prototype.toLowerCase` (per-character lowering). -/
def jsLower (s : String) : List Char :=
  s.data.map Char.toLower

/-- Model of `String.prototype.includes`: `strIncludes hay needle` is true
iff `needle` occurs contiguously inside `hay`. -/
def strIncludes (hay needle : List Char) : Bool :=
  needle.isPrefixOf hay ||
    match hay with
    | [] => false
    | _ :: t => strIncludes t needle

/-- `searchTerm.trim()` truthiness guard from `applyFiltersAndSort`. -/
def searchActive (s : String) : Bool := jsTrim s ≠ ""

/-- The search predicate of `applyFiltersAndSort`:
`todo.title.toLowerCase().includes(searchLower) ||
 todo.description?.toLowerCase().includes(searchLower)`. -/
def searchPred (s : String) (t : Todo) : Bool :=
  strIncludes (jsLower t.title) (jsLower s) ||
    match t.description with
    | some d => strIncludes (jsLower d) (jsLower s)
    | none => false

/-- Guard `filters.status && filters.status.length > 0`. -/
def statusActive (f : TodoFilters) : Bool := (f.status.getD []).length > 0

/-- Predicate `filters.status!.includes(todo.status)`. -/
def statusPred (f : TodoFilters) (t : Todo) : Bool :=
  decide (t.status ∈ f.status.getD [])

/-- Guard `filters.priority && filters.priority.length > 0`. -/
def prioActive (f : TodoFilters) : Bool := (f.priority.getD []).length > 0

/-- Predicate `filters.priority!.includes(todo.priority)`. -/
def prioPred (f : TodoFilters) (t : Todo) : Bool :=
  decide (t.priority ∈ f.priority.getD [])

/-- Guard `if (filters.projectId)`: a present, non-empty (truthy) string. -/
def projActive (f : TodoFilters) : Bool := f.projectId.getD "" ≠ ""

/-- Predicate `todo.projectId === filters.projectId`. -/
def projPred (f : TodoFilters) (t : Todo) : Bool :=
  t.projectId = f.projectId.getD ""

/-- Guard `filters.tagIds && filters.tagIds.length > 0`. -/
def tagsActive (f : TodoFilters) : Bool := (f.tagIds.getD []).length > 0

/-- Predicate `todo.tags?.some(tag => filters.tagIds!.includes(tag.id))`;
a todo with absent `tags` yields `undefined`, hence is filtered out. -/
def tagsPred (f : TodoFilters) (t : Todo) : Bool :=
  match t.tags with
  | some tgs => tgs.any fun tg => decide (tg.id ∈ f.tagIds.getD [])
  | none => false

/-- Guard `if (filters.dueDateFrom || filters.dueDateTo)` (Date objects are
truthy whenever present). -/
def dueActive (f : TodoFilters) : Bool :=
  f.dueDateFrom.isSome || f.dueDateTo.isSome

/-- The date-range predicate body: `if (!todo.dueDate) return false;` then
each present bound is compared (`dueDate < from` / `dueDate > to` reject). -/
def duePred (f : TodoFilters) (t : Todo) : Bool :=
  match t.dueDate with
  | none => false
  | some d =>
      (match f.dueDateFrom with
       | some lo => !decide (d < lo)
       | none => true) &&
      (match f.dueDateTo with
       | some hi => !decide (hi < d)
       | none => true)

/-- One guarded stage `if (active) { filtered = filtered.filter(p) }` of
`applyFiltersAndSort`. -/
def guardFilter (c : Bool) (p : Todo → Bool) (l : List Todo) : List Todo :=
  if c then l.filter p else l

/-- The filtering portion of `applyFiltersAndSort` (lines 71–116 of
`todo-list.tsx`): the six guarded `filter` passes applied in source order. -/
def applyFilters (todos : List Todo) (s : String) (f : TodoFilters) : List Todo :=
  guardFilter (dueActive f) (duePred f)
    (guardFilter (tagsActive f) (tagsPred f)
      (guardFilter (projActive f) (projPred f)
        (guardFilter (prioActive f) (prioPred f)
          (guardFilter (statusActive f) (statusPred f)
            (guardFilter (searchActive s) (searchPred s) todos)))))

/-- The conjunction of the predicates that are present: each absent (or
inactive) predicate contributes `true`. -/
def matchesAll (s : String) (f : TodoFilters) (t : Todo) : Bool :=
  (!searchActive s || searchPred s t) &&
  (!statusActive f || statusPred f t) &&
  (!prioActive f || prioPred f t) &&
  (!projActive f || projPred f t) &&
  (!tagsActive f || tagsPred f t) &&
  (!dueActive f || duePred f t)

/-- The domain order table `{ urgent: 4, high: 3, medium: 2, low: 1 }` of the
priority comparator branch. -/
def prioRank : TodoPriority → Int
  | .urgent => 4
  | .high => 3
  | .medium => 2
  | .low => 1

/-- The domain order table `{ todo: 1, in_progress: 2, done: 3, cancelled: 4 }`
of the status comparator branch. -/
def statusRank : TodoStatus → Int
  | .todo => 1
  | .in_progress => 2
  | .done => 3
  | .cancelled => 4

/-- A comparator key: after the per-field preprocessing of the comparator in
`applyFiltersAndSort`, each record compares through either a number or a
(lower-cased) string. -/
inductive SKey where
  | i (v : Int)
  | s (v : List Char)
deriving DecidableEq, Repr

/-- Key extraction of the comparator: date fields become timestamps with `0`
for absent values, `title` is lower-cased, `priority` and `status` map through
their rank tables. -/
def keyOf (f : SortField) (t : Todo) : SKey :=
  match f with
  | .created_at => .i t.created_at
  | .due_date => .i (match t.dueDate with | some d => d | none => 0)
  | .title => .s (jsLower t.title)
  | .priority => .i (prioRank t.priority)
  | .status => .i (statusRank t.status)

/-- `<` on comparator keys (numeric, or lexicographic for strings, as in
JavaScript). -/
def kLt : SKey → SKey → Bool
  | .i a, .i b => decide (a < b)
  | .s a, .s b => decide (a < b)
  | _, _ => false

/-- The comparator of `applyFiltersAndSort` (lines 119–152): `-1`/`1`/`0`,
with the sign flipped for descending order. -/
def jsCompare (st : TodoSort) (a b : Todo) : Int :=
  if kLt (keyOf st.field a) (keyOf st.field b) then
    (if st.order = SortOrder.asc then -1 else 1)
  else if kLt (keyOf st.field b) (keyOf st.field a) then
    (if st.order = SortOrder.asc then 1 else -1)
  else 0

/-- The `a` sorts-no-later-than `b` relation induced by the comparator. -/
def jsLe (st : TodoSort) (a b : Todo) : Bool := jsCompare st a b ≤ 0

/-- `filtered.sort(comparator)`: JavaScript's sort is required to be stable,
embedded as stable `mergeSort` under `jsLe`. -/
def sortTodos (st : TodoSort) (l : List Todo) : List Todo :=
  l.mergeSort (jsLe st)

/-- The full `applyFiltersAndSort` pipeline: filter then sort. -/
def applyFiltersAndSort (todos : List Todo) (s : String) (f : TodoFilters)
    (st : TodoSort) : List Todo :=
  sortTodos st (applyFilters todos s f)

theorem mem_guardFilter {c : Bool} {p : Todo → Bool} {l : List Todo} {t : Todo} :
    t ∈ guardFilter c p l ↔ t ∈ l ∧ (!c || p t) = true := by
  cases c <;> simp [guardFilter, List.mem_filter]

/-- C1 -- A todo is in the output of `applyFiltersAndSort` iff it is in the
input and satisfies the conjunction of the present predicates; with the empty
filter spec and empty search term the filtering stage returns the whole input
list unchanged. -/
theorem c1_filter_conjunction (todos : List Todo) (s : String) (f : TodoFilters)
    (st : TodoSort) (t : Todo) :
    (t ∈ applyFiltersAndSort todos s f st ↔ t ∈ todos ∧ matchesAll s f t = true)
    ∧ applyFilters todos "" emptyFilters = todos := by
  constructor
  · rw [applyFiltersAndSort, sortTodos, (List.mergeSort_perm _ _).mem_iff]
    simp only [applyFilters, mem_guardFilter, matchesAll, Bool.and_eq_true,
      and_assoc]
  · have hs : searchActive "" = false := by decide
    simp [applyFilters, guardFilter, hs, statusActive, prioActive, projActive,
      tagsActive, dueActive, emptyFilters]

theorem kLt_asymm (x y : SKey) : kLt x y = true → kLt y x = false := by
  cases x <;> cases y <;> simp [kLt] <;> intro h <;> exact le_of_lt h

theorem kLt_neg_trans (f : SortField) (a b c : Todo) :
    kLt (keyOf f a) (keyOf f b) = false → kLt (keyOf f b) (keyOf f c) = false →
    kLt (keyOf f a) (keyOf f c) = false := by
  cases f <;> simp only [keyOf, kLt, decide_eq_false_iff_not, not_lt] <;>
    intro h1 h2 <;> exact le_trans h2 h1

theorem jsLe_asc_eq (f : SortField) (a b : Todo) :
    jsLe ⟨f, .asc⟩ a b = !kLt (keyOf f b) (keyOf f a) := by
  unfold jsLe jsCompare
  rcases h1 : kLt (keyOf f a) (keyOf f b) <;>
    rcases h2 : kLt (keyOf f b) (keyOf f a) <;> simp_all
  exact absurd h2 (by simp [kLt_asymm _ _ h1])

theorem jsLe_desc_eq (f : SortField) (a b : Todo) :
    jsLe ⟨f, .desc⟩ a b = !kLt (keyOf f a) (keyOf f b) := by
  unfold jsLe jsCompare
  rcases h1 : kLt (keyOf f a) (keyOf f b) <;>
    rcases h2 : kLt (keyOf f b) (keyOf f a) <;> simp_all

theorem jsLe_trans (st : TodoSort) : ∀ a b c : Todo,
    jsLe st a b = true → jsLe st b c = true → jsLe st a c = true := by
  rcases st with ⟨f, o⟩
  intro a b c
  cases o
  · rw [jsLe_asc_eq, jsLe_asc_eq, jsLe_asc_eq, Bool.not_eq_true',
      Bool.not_eq_true', Bool.not_eq_true']
    intro h1 h2
    exact kLt_neg_trans f c b a h2 h1
  · rw [jsLe_desc_eq, jsLe_desc_eq, jsLe_desc_eq, Bool.not_eq_true',
      Bool.not_eq_true', Bool.not_eq_true']
    intro h1 h2
    exact kLt_neg_trans f a b c h1 h2

theorem jsLe_total (st : TodoSort) : ∀ a b : Todo,
    (jsLe st a b || jsLe st b a) = true := by
  rcases st with ⟨f, o⟩
  intro a b
  cases o
  · rw [jsLe_asc_eq, jsLe_asc_eq]
    rcases h : kLt (keyOf f b) (keyOf f a)
    · simp [h]
    · simp [kLt_asymm _ _ h]
  · rw [jsLe_desc_eq, jsLe_desc_eq]
    rcases h : kLt (keyOf f a) (keyOf f b)
    · simp [h]
    · simp [kLt_asymm _ _ h]

theorem sortTodos_perm (st : TodoSort) (l : List Todo) :
    (sortTodos st l).Perm l :=
  List.mergeSort_perm l (jsLe st)

theorem sortTodos_pairwise (st : TodoSort) (l : List Todo) :
    List.Pairwise (fun a b => jsLe st a b = true) (sortTodos st l) :=
  List.sorted_mergeSort (jsLe_trans st) (jsLe_total st) l

/-- On a two-element list whose elements already compare `jsLe`, the stable
sort returns the list unchanged. -/
theorem sortTodos_pair_of_le {st : TodoSort} {a b : Todo}
    (h : jsLe st a b = true) : sortTodos st [a, b] = [a, b] := by
  have hsub : [a, b].Sublist (sortTodos st [a, b]) :=
    List.sublist_mergeSort (jsLe_trans st) (jsLe_total st)
      (by simp [h]) (List.Sublist.refl _)
  have hlen : (sortTodos st [a, b]).length = 2 :=
    (sortTodos_perm st [a, b]).length_eq
  exact ((List.Sublist.eq_of_length hsub (by simp [hlen])).symm)

/-- C2 -- Sorting by `priority` ascending yields a permutation of the input
that is pairwise ordered by the domain rank table, whose ranks realize
`low < medium < high < urgent` (not lexical order). -/
theorem c2_priority_domain_order (l : List Todo) :
    (sortTodos ⟨.priority, .asc⟩ l).Perm l
    ∧ List.Pairwise (fun a b => prioRank a.priority ≤ prioRank b.priority)
        (sortTodos ⟨.priority, .asc⟩ l)
    ∧ (prioRank .low < prioRank .medium ∧ prioRank .medium < prioRank .high
        ∧ prioRank .high < prioRank .urgent) := by
  refine ⟨sortTodos_perm _ l, ?_, by decide⟩
  refine (sortTodos_pairwise ⟨.priority, .asc⟩ l).imp ?_
  intro a b h
  rw [jsLe_asc_eq, Bool.not_eq_true'] at h
  simpa [keyOf, kLt, not_lt] using h

/-- A baseline concrete record for counterexamples and witnesses. -/
def todoBase : Todo :=
  { id := "id0", title := "Title", description := none, status := .todo,
    priority := .medium, projectId := "p1", tags := none, dueDate := none,
    created_at := 0, updated_at := 0, completedAt := none }

/-- Concrete record with id `"a"`; same priority as `todoB`. -/
def todoA : Todo := { todoBase with id := "a", title := "Alpha" }

/-- Concrete record with id `"b"`; same priority as `todoA`. -/
def todoB : Todo := { todoBase with id := "b", title := "Beta" }

/-- Sorting by priority, ascending. -/
def prioAscSort : TodoSort := ⟨.priority, .asc⟩

/-- C3 (counterexample) -- The sort is not a strict total order with an `id`
tie-break: `todoA` and `todoB` tie on the priority key, and the two input
orders of the same two records produce different sorted outputs; in
particular the second output is not in ascending-`id` order. -/
theorem c3_counterexample :
    sortTodos prioAscSort [todoA, todoB] ≠ sortTodos prioAscSort [todoB, todoA]
    ∧ List.Perm [todoA, todoB] [todoB, todoA]
    ∧ sortTodos prioAscSort [todoB, todoA] = [todoB, todoA]
    ∧ todoA.id ≠ todoB.id := by
  have h1 : sortTodos prioAscSort [todoA, todoB] = [todoA, todoB] :=
    sortTodos_pair_of_le (by decide)
  have h2 : sortTodos prioAscSort [todoB, todoA] = [todoB, todoA] :=
    sortTodos_pair_of_le (by decide)
  refine ⟨?_, List.Perm.swap todoB todoA [], h2, by decide⟩
  rw [h1, h2]
  decide

/-- C3 (amended) -- The sort deterministically permutes the filtered list into
comparator order, but records that tie on the sort key keep their input
relative order (stability) instead of being re-ordered by ascending `id`;
outputs from permuted inputs need not be identical. -/
theorem c3_sort_stable_no_id_tiebreak (st : TodoSort) (l : List Todo)
    (a b : Todo) :
    (sortTodos st l).Perm l
    ∧ List.Pairwise (fun x y => jsLe st x y = true) (sortTodos st l)
    ∧ (List.Sublist [a, b] l → jsCompare st a b = 0 →
        List.Sublist [a, b] (sortTodos st l)) := by
  refine ⟨sortTodos_perm st l, sortTodos_pairwise st l, fun hsub htie => ?_⟩
  exact List.sublist_mergeSort (jsLe_trans st) (jsLe_total st)
    (by simp [jsLe, htie]) hsub

/-- Witness for the amended C3 theorem at a concrete tied pair. -/
theorem c3_sort_stable_witness :
    List.Sublist [todoA, todoB] (sortTodos prioAscSort [todoA, todoB]) :=
  (c3_sort_stable_no_id_tiebreak prioAscSort [todoA, todoB] todoA todoB).2.2
    (List.Sublist.refl _) (by decide)

/-- `filteredTodos.slice(startIndex, endIndex)` with
`startIndex = (currentPage - 1) * pageSize` and
`endIndex = startIndex + pageSize` (lines 267–270 of `todo-list.tsx`). -/
def paginatedTodos {α : Type*} (filtered : List α) (pageSize currentPage : Nat) :
    List α :=
  (filtered.drop ((currentPage - 1) * pageSize)).take pageSize

/-- `totalPages = Math.ceil(filteredTodos.length / pageSize)` for an integer
`pageSize ≥ 1`. -/
def totalPages {α : Type*} (filtered : List α) (pageSize : Nat) : Nat :=
  (filtered.length + pageSize - 1) / pageSize

/-- The sequence of page slices for `currentPage = 1, …, totalPages`. -/
def allPages {α : Type*} (filtered : List α) (pageSize : Nat) : List (List α) :=
  (List.range (totalPages filtered pageSize)).map fun i =>
    paginatedTodos filtered pageSize (i + 1)

theorem totalPages_nil {α : Type*} (s : Nat) (hs : 1 ≤ s) :
    totalPages ([] : List α) s = 0 := by
  simp only [totalPages, List.length_nil]
  exact Nat.div_eq_of_lt (by omega)

theorem totalPages_cons {α : Type*} (s : Nat) (hs : 1 ≤ s) (l : List α)
    (hl : l ≠ []) : totalPages l s = totalPages (l.drop s) s + 1 := by
  have hlen : 1 ≤ l.length := List.length_pos.mpr hl
  simp only [totalPages, List.length_drop]
  rcases le_or_lt l.length s with hns | hns
  · have h0 : l.length - s = 0 := by omega
    rw [h0]
    have h1 : l.length + s - 1 = (l.length - 1) + s := by omega
    rw [h1, Nat.add_div_right _ (by omega), Nat.div_eq_of_lt (by omega),
      Nat.div_eq_of_lt (by omega)]
  · have h1 : l.length + s - 1 = (l.length - 1) + s := by omega
    have h2 : l.length - s + s - 1 = l.length - 1 := by omega
    rw [h1, h2, Nat.add_div_right _ (by omega)]

theorem allPages_cons {α : Type*} (s : Nat) (hs : 1 ≤ s) (l : List α)
    (hl : l ≠ []) :
    allPages l s = l.take s :: allPages (l.drop s) s := by
  unfold allPages
  rw [totalPages_cons s hs l hl, List.range_succ_eq_map, List.map_cons,
    List.map_map]
  congr 1
  case _ => simp [paginatedTodos]
  case _ =>
    refine List.map_congr_left fun i _ => ?_
    simp only [Function.comp, paginatedTodos, Nat.succ_eq_add_one,
      Nat.add_sub_cancel, List.drop_drop]
    congr 1
    ring_nf

theorem allPages_flatten {α : Type*} (s : Nat) (hs : 1 ≤ s) :
    ∀ (n : Nat) (l : List α), l.length ≤ n → (allPages l s).flatten = l := by
  intro n
  induction n with
  | zero =>
    intro l hl
    have : l = [] := List.eq_nil_of_length_eq_zero (Nat.le_zero.mp hl)
    subst this
    simp [allPages, totalPages_nil s hs]
  | succ n ih =>
    intro l hl
    rcases hemp : l with _ | ⟨a, tl⟩
    · simp [allPages, totalPages_nil s hs]
    · rw [← hemp, allPages_cons s hs l (by simp [hemp]), List.flatten_cons,
        ih (l.drop s) (by simp [hemp] at hl ⊢; omega)]
      exact List.take_append_drop s l

/-- C4 -- For any page size ≥ 1 every page slice has length at most the page
size, and the page slices at consecutive pages concatenate (without overlap or
gap) to the whole filtered list; a 45-item list with page size 20 yields pages
of lengths 20, 20 and 5. -/
theorem c4_pagination {α : Type*} (l : List α) (s : Nat) (hs : 1 ≤ s) :
    (∀ p, (paginatedTodos l s p).length ≤ s)
    ∧ (allPages l s).flatten = l
    ∧ (allPages (List.range 45) 20).map List.length = [20, 20, 5] := by
  refine ⟨fun p => ?_, allPages_flatten s hs l.length l le_rfl, by decide⟩
  simp [paginatedTodos]

/-- Witness for C4 at the 45-item, page-size-20 instance from the spec. -/
theorem c4_pagination_witness :
    (allPages (List.range 45) 20).flatten = List.range 45 :=
  (c4_pagination (List.range 45) 20 (by decide)).2.1

/-- `handleTodoUpdate` (lines 195–199): replace the record whose `id` matches
the incoming record, unconditionally. -/
def handleTodoUpdate (updatedTodo : Todo) (todos : List Todo) : List Todo :=
  todos.map fun todo => if todo.id = updatedTodo.id then updatedTodo else todo

/-- `handleTodoCreate` (lines 223–226): prepend the new record. -/
def handleTodoCreate (newTodo : Todo) (todos : List Todo) : List Todo :=
  newTodo :: todos

/-- The local removal of `handleTodoDelete` (line 213):
`prev.filter(todo => todo.id !== todoId)`. -/
def removeTodoLocal (todoId : String) (todos : List Todo) : List Todo :=
  todos.filter fun todo => todo.id ≠ todoId

/-- The component state `handleTodoDelete` touches: the `todos` collection and
the `error` banner. -/
structure TodoListState where
  todos : List Todo
  error : Option String
deriving DecidableEq, Repr

/-- `handleTodoDelete` (lines 204–218): issue the remote delete; only on
success remove the record locally, on failure set the error message and leave
the collection alone. -/
def handleTodoDelete (remote : Except String Unit) (todoId : String)
    (s : TodoListState) : TodoListState :=
  match remote with
  | .ok _ => { s with todos := removeTodoLocal todoId s.todos }
  | .error msg => { s with error := some msg }

/-- C5 (counterexample) -- `handleTodoCreate` is not idempotent: applying the
same create twice duplicates the record. -/
theorem c5_counterexample :
    handleTodoCreate todoBase (handleTodoCreate todoBase []) ≠
      handleTodoCreate todoBase [] := by
  decide

/-- C5 (amended) -- `handleTodoUpdate` and the local removal of
`handleTodoDelete` are idempotent, but `handleTodoCreate` is not: a second
application prepends a duplicate of the record. -/
theorem c5_amended_idempotence (l : List Todo) (u : Todo) (todoId : String)
    (t : Todo) :
    handleTodoUpdate u (handleTodoUpdate u l) = handleTodoUpdate u l
    ∧ removeTodoLocal todoId (removeTodoLocal todoId l) = removeTodoLocal todoId l
    ∧ handleTodoCreate t (handleTodoCreate t l) = t :: t :: l := by
  refine ⟨?_, ?_, rfl⟩
  · simp only [handleTodoUpdate]
    rw [List.map_map]
    refine List.map_congr_left fun x _ => ?_
    by_cases h : x.id = u.id <;> simp [Function.comp, h]
  · simp only [removeTodoLocal]
    rw [List.filter_filter]
    refine List.filter_congr fun x _ => ?_
    by_cases h : x.id = todoId <;> simp [h]

/-- Stored record: same id as `todoStale` but a strictly newer
`updated_at` revision. -/
def todoStored : Todo :=
  { todoBase with id := "1", title := "newer title", updated_at := 2 }

/-- Incoming stale update: lower `updated_at` than `todoStored`. -/
def todoStale : Todo :=
  { todoBase with id := "1", title := "older title", updated_at := 1 }

/-- C6 (counterexample) -- `handleTodoUpdate` applies an update carrying a
lower revision (`updated_at`) than the stored record: the stale record
overwrites the newer one, so the collection does change. -/
theorem c6_counterexample :
    handleTodoUpdate todoStale [todoStored] ≠ [todoStored]
    ∧ todoStale.updated_at < todoStored.updated_at
    ∧ todoStale.id = todoStored.id
    ∧ handleTodoUpdate todoStale [todoStored] = [todoStale] := by
  decide

/-- C6 (amended) -- `handleTodoUpdate` replaces the stored record for the
incoming record's `id` unconditionally — with no revision comparison, so a
lower-revision update also overwrites — while records with other ids are
kept. -/
theorem c6_update_unconditional (l : List Todo) (u t : Todo) :
    (t ∈ handleTodoUpdate u l → t.id = u.id → t = u)
    ∧ (t ∈ l → t.id ≠ u.id → t ∈ handleTodoUpdate u l) := by
  constructor
  · intro ht hid
    rcases List.mem_map.mp ht with ⟨x, hx, hfx⟩
    by_cases h : x.id = u.id
    · rw [if_pos h] at hfx
      exact hfx.symm
    · rw [if_neg h] at hfx
      subst hfx
      exact absurd hid h
  · intro ht hid
    exact List.mem_map.mpr ⟨t, ht, by rw [if_neg hid]⟩

/-- Witness for the amended C6 theorem: the stale record has overwritten the
newer stored one, and a record with a different id survives. -/
theorem c6_update_unconditional_witness :
    todoStale = todoStale ∧ todoA ∈ handleTodoUpdate todoStale [todoA] :=
  ⟨(c6_update_unconditional [todoStored] todoStale todoStale).1 (by decide) rfl,
   (c6_update_unconditional [todoA] todoStale todoA).2 (by decide) (by decide)⟩

/-- C7 -- When the remote store rejects a delete, the local collection is left
exactly as it was (every record, including the delete target, keeps its
fields and position) and the failure surfaces only as the error message. -/
theorem c7_delete_rejected (s : TodoListState) (todoId : String) (msg : String) :
    (handleTodoDelete (.error msg) todoId s).todos = s.todos
    ∧ (handleTodoDelete (.error msg) todoId s).error = some msg :=
  ⟨rfl, rfl⟩

/-- C9 -- As soon as one due-date bound is present, a todo with an absent
`dueDate` cannot appear in the filtered result. -/
theorem c9_due_bound_excludes_absent (todos : List Todo) (s : String)
    (f : TodoFilters) (t : Todo) (hdue : dueActive f = true)
    (ht : t ∈ applyFilters todos s f) : t.dueDate ≠ none := by
  unfold applyFilters at ht
  rw [mem_guardFilter] at ht
  rcases ht with ⟨-, hp⟩
  rw [hdue] at hp
  simp only [Bool.not_true, Bool.false_or] at hp
  intro hnone
  rw [duePred, hnone] at hp
  exact Bool.false_ne_true hp

/-- A record with a due date inside the filter range. -/
def todoDue : Todo := { todoBase with dueDate := some 3 }

/-- A filter spec with only the lower due-date bound present. -/
def fDue : TodoFilters := { dueDateFrom := some 1 }

/-- Witness for C9 at a concrete one-bound filter. -/
theorem c9_due_bound_witness : todoDue.dueDate ≠ none :=
  c9_due_bound_excludes_absent [todoDue] "" fDue todoDue (by decide) (by decide)

/-- `TodoItem.handleToggleStatus` (todo-item.tsx): the update payload sets
`status` to `'todo'` when the current status is `'done'` and to `'done'`
otherwise, and `completedAt` to the current time exactly when the new status
is `'done'`, else to `null`. -/
def handleToggleStatus (t : Todo) (now : Int) : Todo :=
  let newStatus : TodoStatus := if t.status = .done then .todo else .done
  { t with status := newStatus,
           completedAt := if newStatus = .done then some now else none }

/-- C10 -- The toggle is a two-valued switch: from `done` it goes to `todo`
clearing `completedAt`; from `todo`, `in_progress` or `cancelled` it goes
directly to `done`, stamping `completedAt` with the current time. -/
theorem c10_toggle_status (t : Todo) (now : Int) :
    handleToggleStatus { t with status := .done } now
      = { t with status := .todo, completedAt := none }
    ∧ handleToggleStatus { t with status := .todo } now
      = { t with status := .done, completedAt := some now }
    ∧ handleToggleStatus { t with status := .in_progress } now
      = { t with status := .done, completedAt := some now }
    ∧ handleToggleStatus { t with status := .cancelled } now
      = { t with status := .done, completedAt := some now } :=
  ⟨rfl, rfl, rfl, rfl⟩

/-- A store of arrays for the frame property: a reference is an index into the
store, the referent is the array's contents.  `[...todos]`, `Array.prototype.filter`
and the spread in the pipeline allocate fresh arrays (appended at the end);
only `Array.prototype.sort` writes in place. -/
abbrev Heap := List (List Todo)

/-- Dereference: the contents of the array at reference `r`. -/
def readH (h : Heap) (r : Nat) : List Todo := h.getD r []

/-- One guarded pass `if (active) { filtered = filtered.filter(p) }` on the
store: `filter` returns a fresh array and the local variable `filtered` is
re-pointed at it; the previous arrays are untouched. -/
def stageH (c : Bool) (p : Todo → Bool) : Heap × Nat → Heap × Nat
  | (h, r) => if c then (h ++ [(readH h r).filter p], h.length) else (h, r)

/-- `let filtered = [...todos]` (a fresh copy) followed by the six guarded
filter passes, on the store. -/
def filterStagesH (h : Heap) (todosRef : Nat) (s : String) (f : TodoFilters) :
    Heap × Nat :=
  stageH (dueActive f) (duePred f)
    (stageH (tagsActive f) (tagsPred f)
      (stageH (projActive f) (projPred f)
        (stageH (prioActive f) (prioPred f)
          (stageH (statusActive f) (statusPred f)
            (stageH (searchActive s) (searchPred s)
              (h ++ [readH h todosRef], h.length))))))

/-- The whole `applyFiltersAndSort` computation on the mutable store: the
final `filtered.sort(...)` writes the sorted contents back in place at the
reference the local variable currently holds, and that reference is returned. -/
def applyFiltersAndSortH (h : Heap) (todosRef : Nat) (s : String)
    (f : TodoFilters) (st : TodoSort) : Heap × Nat :=
  let p := filterStagesH h todosRef s f
  (p.1.set p.2 (sortTodos st (readH p.1 p.2)), p.2)

/-- Invariant carried across the filter passes: the current reference is a
fresh one (at or beyond the original store's end), valid in the current
store; every original reference reads unchanged; and the current referent is
the corresponding pure value. -/
def InvH (h0 : Heap) (v : List Todo) (p : Heap × Nat) : Prop :=
  h0.length ≤ p.2 ∧ p.2 < p.1.length ∧
  (∀ q, q < h0.length → readH p.1 q = readH h0 q) ∧ readH p.1 p.2 = v

theorem readH_append_lt (h : Heap) (a : List Todo) (q : Nat)
    (hq : q < h.length) : readH (h ++ [a]) q = readH h q := by
  simp [readH, List.getD_eq_getElem?_getD, List.getElem?_append_left hq]

theorem readH_append_self (h : Heap) (a : List Todo) :
    readH (h ++ [a]) h.length = a := by
  simp [readH, List.getD_eq_getElem?_getD, List.getElem?_concat_length]

theorem readH_set_ne (h : Heap) (r : Nat) (a : List Todo) (q : Nat)
    (hne : r ≠ q) : readH (h.set r a) q = readH h q := by
  simp [readH, List.getD_eq_getElem?_getD, List.getElem?_set_ne hne]

theorem readH_set_self (h : Heap) (r : Nat) (a : List Todo)
    (hr : r < h.length) : readH (h.set r a) r = a := by
  simp [readH, List.getD_eq_getElem?_getD, List.getElem?_set_self hr]

theorem stageH_inv {h0 : Heap} {v : List Todo} {p : Heap × Nat}
    (c : Bool) (pr : Todo → Bool) (hp : InvH h0 v p) :
    InvH h0 (guardFilter c pr v) (stageH c pr p) := by
  rcases p with ⟨h, r⟩
  obtain ⟨h1, h2, h3, h4⟩ := hp
  have h1a : h0.length ≤ r := h1
  have h2a : r < h.length := h2
  have h3a : ∀ q, q < h0.length → readH h q = readH h0 q := h3
  have h4a : readH h r = v := h4
  cases c
  · exact ⟨h1a, h2a, h3a, h4a⟩
  · refine ⟨show h0.length ≤ h.length by omega,
      show h.length < (h ++ [(readH h r).filter pr]).length by simp,
      fun q hq => ?_, ?_⟩
    · show readH (h ++ [(readH h r).filter pr]) q = readH h0 q
      rw [readH_append_lt _ _ _ (by omega)]
      exact h3a q hq
    · show readH (h ++ [(readH h r).filter pr]) h.length = guardFilter true pr v
      rw [readH_append_self, h4a]
      rfl

theorem filterStagesH_inv (h : Heap) (todosRef : Nat) (s : String)
    (f : TodoFilters) :
    InvH h (applyFilters (readH h todosRef) s f) (filterStagesH h todosRef s f) := by
  have inv0 : InvH h (readH h todosRef) (h ++ [readH h todosRef], h.length) :=
    ⟨le_rfl, by simp, fun q hq => readH_append_lt h _ q hq, readH_append_self h _⟩
  exact stageH_inv _ _ (stageH_inv _ _ (stageH_inv _ _ (stageH_inv _ _
    (stageH_inv _ _ (stageH_inv _ _ inv0)))))

/-- C8 -- Frame property of the materialization: running the whole
filter-and-sort computation on the store leaves the input `todos` array
exactly as it was (same records, same order, same fields) — the in-place sort
only ever writes to a freshly allocated array — and the returned reference
holds exactly the pure `applyFiltersAndSort` of the input. -/
theorem c8_no_input_mutation (h : Heap) (todosRef : Nat) (s : String)
    (f : TodoFilters) (st : TodoSort) (href : todosRef < h.length) :
    readH (applyFiltersAndSortH h todosRef s f st).1 todosRef = readH h todosRef
    ∧ readH (applyFiltersAndSortH h todosRef s f st).1
        (applyFiltersAndSortH h todosRef s f st).2
      = applyFiltersAndSort (readH h todosRef) s f st := by
  obtain ⟨hle, hlt, hframe, hval⟩ := filterStagesH_inv h todosRef s f
  have heq : applyFiltersAndSortH h todosRef s f st
      = ((filterStagesH h todosRef s f).1.set (filterStagesH h todosRef s f).2
          (sortTodos st (readH (filterStagesH h todosRef s f).1
            (filterStagesH h todosRef s f).2)),
         (filterStagesH h todosRef s f).2) := rfl
  rw [heq]
  constructor
  · rw [readH_set_ne _ _ _ _ (by omega)]
    exact hframe todosRef href
  · rw [readH_set_self _ _ _ hlt, hval]
    rfl

/-- Witness for C8 at a one-array store holding one record. -/
theorem c8_no_input_mutation_witness :
    readH (applyFiltersAndSortH [[todoBase]] 0 "" emptyFilters prioAscSort).1 0
      = readH [[todoBase]] 0 :=
  (c8_no_input_mutation [[todoBase]] 0 "" emptyFilters prioAscSort (by decide)).1
